import Mathlib

/-!
Shallow embedding of `src/scripts/sync/sync-org-projects.ts` from the
snyk-api-import repository (functions `isSourceConfigured`, `updateOrgTargets`,
`updateTargets`), together with a spec-modelled `syncProjectsForTarget`
(its implementation file `sync-projects-per-target.ts` is not part of the
sources; only its caller and its tests are).

External collaborators (HTTP calls, loggers, the logging-path resolver) are
modelled as injected functions returning `Except String α`: `Except.error`
stands for a rejected promise / thrown exception carrying `e.message`.
Every embedded operation additionally returns the list of collaborator
invocations it performed (a `CallEv` trace), so that claims of the form
"collaborator X is never invoked" are directly statable.

The TypeScript code iterates with `pMap` under a concurrency bound (3 for
sources, 20 for targets).  The embedding iterates sequentially: `pMap`'s
result array and its rejection behaviour (the returned promise rejects with
the first mapper rejection) agree with the sequential model up to the order
in which independent elements complete, and no claim below depends on the
interleaving order of independent elements.

`getLoggingPath` reads mutable process state (environment/config), so two
invocations may disagree; it is therefore indexed by an invocation counter
threaded through the run (call 0 happens inside the first `updateTargets`,
and the final two calls of `updateOrgTargets` use the next two indices).
-/

/-- A Snyk target (`SnykTarget` in `src/lib/types`): a tracked repository.
The TS shape nests `displayName`, `origin`, `isPrivate`, `remoteUrl` under
`attributes`; they are flattened here. -/
structure SnykTarget where
  id : String
  displayName : String
  origin : String
  isPrivate : Bool
  remoteUrl : Option String
deriving DecidableEq, Repr

/-- A Snyk project (`SnykProject` in `src/lib/types`): one tracked manifest
under a target.  `branch` is nullable in the TS type. -/
structure SnykProject where
  id : String
  name : String
  created : String
  origin : String
  type : String
  branch : Option String
deriving DecidableEq, Repr

/-- Outcome record for a project whose branch was (or would be) updated
(`ProjectUpdate` in `sync-projects-per-target.ts`).  The TS field `from` is a
Lean keyword, so it is named `fromBranch` here (and `to` is `toBranch` for
symmetry). -/
structure ProjectUpdate where
  projectPublicId : String
  fromBranch : String
  toBranch : String
  type : String
  dryRun : Bool
  target : SnykTarget
deriving DecidableEq, Repr

/-- Outcome record for a project whose update call failed
(`ProjectUpdateFailure`): the same identifying fields plus an error message. -/
structure ProjectUpdateFailure where
  projectPublicId : String
  fromBranch : String
  toBranch : String
  type : String
  dryRun : Bool
  errorMessage : String
  target : SnykTarget
deriving DecidableEq, Repr

/-- One collaborator invocation, recorded in the run's trace. -/
inductive CallEv where
  | getFeatureFlag (flag orgId : String)
  | isGithubConfigured
  | listTargets (orgId origin : String)
  | listProjects (orgId targetId : String)
  | getDefaultBranch (targetId : String)
  | updateProject (projectId branch : String)
  | logUpdatedProjects (orgId : String)
  | logFailedToUpdateProjects (orgId : String)
  | logFailedSync (orgId targetId : String)
  | getLoggingPath (k : Nat)
deriving DecidableEq, Repr

/-- The external collaborators of the sync engine, injected as pure oracles.
`Except.error msg` models a rejected promise whose error has message `msg`. -/
structure Deps where
  getFeatureFlag : String → String → Except String Bool
  isGithubConfigured : Except String Unit
  listTargets : String → String → Except String (List SnykTarget)
  listProjects : String → SnykTarget → Except String (List SnykProject)
  getDefaultBranch : SnykTarget → Option String → Except String String
  updateProject : String → String → Except String Unit
  logUpdatedProjects : String → List ProjectUpdate → Except String Unit
  logFailedToUpdateProjects : String → List ProjectUpdateFailure → Except String Unit
  logFailedSync : String → SnykTarget → String → String → Except String Unit
  getLoggingPath : Nat → Except String String

/-- `UPDATED_PROJECTS_LOG_NAME` from `src/common` (value pinned by the
repository's tests, which match the returned file names). -/
def UPDATED_PROJECTS_LOG_NAME : String := "updated-projects.log"

/-- `FAILED_UPDATE_PROJECTS_LOG_NAME` from `src/common`. -/
def FAILED_UPDATE_PROJECTS_LOG_NAME : String := "failed-to-update-projects.log"

/-- The values of the `SupportedIntegrationTypesUpdateProject` enum: the single
supported source is `github` (the tests pin the error message
"... only supports the following sources: github"). -/
def supportedIntegrationTypesUpdateProject : List String := ["github"]

/-- `path.resolve(dir, file)` as used on the success path of the log-path
resolution; modelled as path concatenation. -/
def pathResolve (dir file : String) : String := dir ++ "/" ++ file

/-- `isSourceConfigured` (sync-org-projects.ts lines 24-31): a lookup table
from origin to its configuration check.  In TS the lookup on an unsupported
origin yields `undefined`; this is modelled by `Option`, where `some c` is the
defined configuration-check thunk. -/
def isSourceConfigured (deps : Deps) (origin : String) :
    Option (Except String Unit) :=
  if origin = "github" then some deps.isGithubConfigured else none

/-- Error message thrown when no requested source is supported
(sync-org-projects.ts lines 72-76). -/
def nothingToSyncMessage : String :=
  "Nothing to sync, stopping. Sync command currently only supports the following sources: "
    ++ String.intercalate "," supportedIntegrationTypesUpdateProject

/-- Error message thrown when the feature-flag query itself fails
(sync-org-projects.ts lines 94-96). -/
def orgNotFoundMessage (publicOrgId : String) : String :=
  "Org " ++ publicOrgId ++
    " was not found or you may not have the correct permissions to access the org"

/-- Error message thrown when the org has the customBranch feature flag
(sync-org-projects.ts lines 101-103). -/
def customBranchMessage (publicOrgId : String) : String :=
  "Detected custom branches feature. Skipping syncing organization " ++
    publicOrgId ++
    " because it is not possible to determine which should be the default branch."

/-- Modelled from the spec: the error message of a `ProjectUpdateFailure`
produced when the project-update call rejects.  The implementation
(`sync-projects-per-target.ts`) is not among the sources; the exact wording is
pinned by the repository's own test (part_000 lines 255-265), which expects
"Failed to update project <id> via Snyk API. ERROR: <message>". -/
def projectUpdateFailureMessage (projectId errMsg : String) : String :=
  "Failed to update project " ++ projectId ++ " via Snyk API. ERROR: " ++ errMsg

/-- The `ProjectUpdate` produced for a project whose branch moves to `db`. -/
def mkProjectUpdate (p : SnykProject) (db : String) (dryRun : Bool)
    (t : SnykTarget) : ProjectUpdate :=
  { projectPublicId := p.id
    fromBranch := p.branch.getD ""
    toBranch := db
    type := "branch"
    dryRun := dryRun
    target := t }

/-- The `ProjectUpdateFailure` produced when the update call for `p` rejects
with message `errMsg`. -/
def mkProjectUpdateFailure (p : SnykProject) (db : String) (dryRun : Bool)
    (t : SnykTarget) (errMsg : String) : ProjectUpdateFailure :=
  { projectPublicId := p.id
    fromBranch := p.branch.getD ""
    toBranch := db
    type := "branch"
    dryRun := dryRun
    errorMessage := projectUpdateFailureMessage p.id errMsg
    target := t }

/-- Modelled from the spec: the per-project branch decision of
`sync-projects-per-target.ts` (spec section 4.1, BranchDecisionMaker).  If the
recorded branch already equals the provider default, produce nothing; if it
differs, in dry-run mode produce a simulated `ProjectUpdate`, otherwise invoke
the external update call and convert its rejection into a
`ProjectUpdateFailure` — the rejection is never propagated. -/
def syncProject (deps : Deps) (t : SnykTarget) (db : String) (dryRun : Bool)
    (p : SnykProject) :
    (List ProjectUpdate × List ProjectUpdateFailure) × List CallEv :=
  if p.branch = some db then (([], []), [])
  else if dryRun then (([mkProjectUpdate p db true t], []), [])
  else
    match deps.updateProject p.id db with
    | .ok _ => (([mkProjectUpdate p db false t], []), [.updateProject p.id db])
    | .error msg =>
        (([], [mkProjectUpdateFailure p db false t msg]),
         [.updateProject p.id db])

/-- Runs `syncProject` over every project of the target, concatenating the
produced records in project-listing order. -/
def syncProjectsGo (deps : Deps) (t : SnykTarget) (db : String)
    (dryRun : Bool) :
    List SnykProject →
      (List ProjectUpdate × List ProjectUpdateFailure) × List CallEv
  | [] => (([], []), [])
  | p :: ps =>
    let r := syncProject deps t db dryRun p
    let rs := syncProjectsGo deps t db dryRun ps
    ((r.1.1 ++ rs.1.1, r.1.2 ++ rs.1.2), r.2 ++ rs.2)

/-- Modelled from the spec: `syncProjectsForTarget` of
`sync-projects-per-target.ts` (spec section 4.2, PerTargetProjectSynchronizer).
Lists the target's projects and fetches its default branch once; either
external failure propagates to the caller.  Then applies the per-project
branch decision to every project and returns the `{updated, failed}` pair,
each record carrying the owning target. -/
def syncProjectsForTarget (deps : Deps) (orgId : String) (t : SnykTarget)
    (dryRun : Bool) (host : Option String) :
    Except String (List ProjectUpdate × List ProjectUpdateFailure) ×
      List CallEv :=
  match deps.listProjects orgId t with
  | .error e => (.error e, [.listProjects orgId t.id])
  | .ok projects =>
    match deps.getDefaultBranch t host with
    | .error e =>
        (.error e, [.listProjects orgId t.id, .getDefaultBranch t.id])
    | .ok db =>
      let r := syncProjectsGo deps t db dryRun projects
      (.ok r.1, [.listProjects orgId t.id, .getDefaultBranch t.id] ++ r.2)

/-- The accumulated result of `updateTargets`: `processedTargets` plus
`meta.projects.{updated, failed}` flattened. -/
structure TargetsResult where
  processedTargets : Nat
  updated : List ProjectUpdate
  failed : List ProjectUpdateFailure
deriving DecidableEq, Repr

/-- The initial accumulator of `updateTargets`. -/
def emptyTargetsResult : TargetsResult := ⟨0, [], []⟩

/-- The `if (updated.length) await logUpdatedProjects(orgId, updated)` step of
`updateTargets` (lines 190-192). -/
def logUpdatedStep (deps : Deps) (orgId : String)
    (upd : List ProjectUpdate) : Except String Unit × List CallEv :=
  if upd.isEmpty then (.ok (), [])
  else (deps.logUpdatedProjects orgId upd, [.logUpdatedProjects orgId])

/-- The `if (failed.length) await logFailedToUpdateProjects(orgId, failed)`
step of `updateTargets` (lines 193-195). -/
def logFailedStep (deps : Deps) (orgId : String)
    (fld : List ProjectUpdateFailure) : Except String Unit × List CallEv :=
  if fld.isEmpty then (.ok (), [])
  else (deps.logFailedToUpdateProjects orgId fld,
        [.logFailedToUpdateProjects orgId])

/-- The catch block of `updateTargets` (lines 196-203): the caught error's
message is logged via `logFailedSync` and the accumulator `st` is returned
unchanged; a rejection of `logFailedSync` itself is NOT caught and propagates
out of the per-target mapper. -/
def catchStep (deps : Deps) (orgId : String) (t : SnykTarget)
    (loggingPath : String) (msg : String) (st : TargetsResult) :
    Except String TargetsResult × List CallEv :=
  match deps.logFailedSync orgId t msg loggingPath with
  | .ok _ => (.ok st, [.logFailedSync orgId t.id])
  | .error e => (.error e, [.logFailedSync orgId t.id])

/-- The two logging calls of the try block (lines 190-195), performed AFTER
the pushes and the `processedTargets` increment already produced `st1`: a
rejection of either is handed to the catch block, which keeps `st1`. -/
def logStep (deps : Deps) (orgId : String) (t : SnykTarget) (lp : String)
    (st1 : TargetsResult) (upd : List ProjectUpdate)
    (fld : List ProjectUpdateFailure) :
    Except String TargetsResult × List CallEv :=
  let lu := logUpdatedStep deps orgId upd
  match lu.1 with
  | .error e =>
    let c := catchStep deps orgId t lp e st1
    (c.1, lu.2 ++ c.2)
  | .ok _ =>
    let lf := logFailedStep deps orgId fld
    match lf.1 with
    | .error e =>
      let c := catchStep deps orgId t lp e st1
      (c.1, lu.2 ++ lf.2 ++ c.2)
    | .ok _ => (.ok st1, lu.2 ++ lf.2)

/-- The body of the per-target `pMap` mapper of `updateTargets`
(lines 177-204): `syncProjectsForTarget` wrapped in the try/catch failure
boundary.  On success the pushes and the `processedTargets` increment happen
BEFORE the two logging calls, so a logging rejection is caught by the same
boundary but leaves the already-updated accumulator in place. -/
def processTarget (deps : Deps) (orgId : String) (dryRun : Bool)
    (host : Option String) (loggingPath : String) (st : TargetsResult)
    (t : SnykTarget) : Except String TargetsResult × List CallEv :=
  let s := syncProjectsForTarget deps orgId t dryRun host
  match s.1 with
  | .error e =>
    let c := catchStep deps orgId t loggingPath e st
    (c.1, s.2 ++ c.2)
  | .ok (upd, fld) =>
    let l := logStep deps orgId t loggingPath
      ⟨st.processedTargets + 1, st.updated ++ upd, st.failed ++ fld⟩ upd fld
    (l.1, s.2 ++ l.2)

/-- Folds `processTarget` over the batch of targets. -/
def updateTargetsGo (deps : Deps) (orgId : String) (dryRun : Bool)
    (host : Option String) (loggingPath : String) :
    List SnykTarget → TargetsResult →
      Except String TargetsResult × List CallEv
  | [], st => (.ok st, [])
  | t :: ts, st =>
    let pr := processTarget deps orgId dryRun host loggingPath st t
    match pr.1 with
    | .error e => (.error e, pr.2)
    | .ok st1 =>
      let r := updateTargetsGo deps orgId dryRun host loggingPath ts st1
      (r.1, pr.2 ++ r.2)

/-- `updateTargets` (sync-org-projects.ts lines 154-217).  Note that the
`getLoggingPath()` call at line 173 is NOT inside any try/catch: if it throws,
`updateTargets` rejects.  `k` is the invocation index of that call. -/
def updateTargets (deps : Deps) (orgId : String) (targets : List SnykTarget)
    (dryRun : Bool) (host : Option String) (k : Nat) :
    Except String TargetsResult × List CallEv :=
  match deps.getLoggingPath k with
  | .error e => (.error e, [.getLoggingPath k])
  | .ok lp =>
    let r := updateTargetsGo deps orgId dryRun host lp targets
      emptyTargetsResult
    (r.1, .getLoggingPath k :: r.2)

/-- Merging of one source's batch result into the running org aggregate
(sync-org-projects.ts lines 129-131): summation of the counter and
concatenation of both sequences. -/
def mergeResults (a b : TargetsResult) : TargetsResult :=
  ⟨a.processedTargets + b.processedTargets, a.updated ++ b.updated,
   a.failed ++ b.failed⟩

/-- The body of the per-source `pMap` mapper of `updateOrgTargets`
(lines 108-132): configuration check (calling the table entry — for a source
that survived the filter the entry is defined), target listing, then
`updateTargets` on the listed targets.  `k` is the `getLoggingPath`
invocation index consumed by the nested `updateTargets`. -/
def processSource (deps : Deps) (orgId : String) (dryRun : Bool)
    (host : Option String) (k : Nat) (source : String) :
    Except String TargetsResult × List CallEv :=
  match isSourceConfigured deps source with
  | none =>
    (.error ("TypeError: isSourceConfigured(...) is not a function for source "
        ++ source), [])
  | some check =>
    match check with
    | .error e => (.error e, [.isGithubConfigured])
    | .ok _ =>
      match deps.listTargets orgId source with
      | .error e => (.error e, [.isGithubConfigured, .listTargets orgId source])
      | .ok targets =>
        let r := updateTargets deps orgId targets dryRun host k
        (r.1, [.isGithubConfigured, .listTargets orgId source] ++ r.2)

/-- Folds `processSource` over the allowed sources, merging results and
threading the `getLoggingPath` invocation counter (one call per source). -/
def updateOrgTargetsGo (deps : Deps) (orgId : String) (dryRun : Bool)
    (host : Option String) :
    List String → TargetsResult → Nat →
      Except String (TargetsResult × Nat) × List CallEv
  | [], acc, k => (.ok (acc, k), [])
  | s :: ss, acc, k =>
    let ps := processSource deps orgId dryRun host k s
    match ps.1 with
    | .error e => (.error e, ps.2)
    | .ok r =>
      let rest := updateOrgTargetsGo deps orgId dryRun host ss
        (mergeResults acc r) (k + 1)
      (rest.1, ps.2 ++ rest.2)

/-- One guarded log-path resolution of `updateOrgTargets` (lines 136-150):
`path.resolve(getLoggingPath(), name)` with a fall-back to the bare `name`
when the resolver throws.  `k` is the resolver's invocation index. -/
def resolvedLogFile (deps : Deps) (k : Nat) (name : String) : String :=
  match deps.getLoggingPath k with
  | .ok p => pathResolve p name
  | .error _ => name

/-- The result shape of `updateOrgTargets`:
`{fileName, failedFileName, processedTargets, meta.projects.{updated,failed}}`
flattened. -/
structure OrgSyncResult where
  fileName : String
  failedFileName : String
  processedTargets : Nat
  updated : List ProjectUpdate
  failed : List ProjectUpdateFailure
deriving DecidableEq, Repr

/-- `updateOrgTargets` (sync-org-projects.ts lines 33-152): filter the
requested sources against the supported set and reject when none survive;
query the customBranch feature flag, rejecting on query failure (wrapped,
naming the org) or on an enabled flag; fan out per source; finally resolve
the two log-file paths, each falling back to the bare file name if the
resolver throws there. -/
def updateOrgTargets (deps : Deps) (publicOrgId : String)
    (sources : List String) (dryRun : Bool) (host : Option String) :
    Except String OrgSyncResult × List CallEv :=
  let allowedSources := sources.filter
    (fun s => supportedIntegrationTypesUpdateProject.contains s)
  if allowedSources.isEmpty then (.error nothingToSyncMessage, [])
  else
    match deps.getFeatureFlag "customBranch" publicOrgId with
    | .error _ =>
      (.error (orgNotFoundMessage publicOrgId),
       [.getFeatureFlag "customBranch" publicOrgId])
    | .ok hasCustomBranchFlag =>
      if hasCustomBranchFlag then
        (.error (customBranchMessage publicOrgId),
         [.getFeatureFlag "customBranch" publicOrgId])
      else
        let g := updateOrgTargetsGo deps publicOrgId dryRun host
          allowedSources emptyTargetsResult 0
        match g.1 with
        | .error e =>
          (.error e, .getFeatureFlag "customBranch" publicOrgId :: g.2)
        | .ok (res, k) =>
          (.ok ⟨resolvedLogFile deps k UPDATED_PROJECTS_LOG_NAME,
              resolvedLogFile deps (k + 1) FAILED_UPDATE_PROJECTS_LOG_NAME,
              res.processedTargets, res.updated, res.failed⟩,
           .getFeatureFlag "customBranch" publicOrgId ::
             g.2 ++ [.getLoggingPath k, .getLoggingPath (k + 1)])

/-! ## Concrete collaborator instances used by witnesses -/

/-- A benign collaborator set: every call succeeds, no targets/projects. -/
def baseDeps : Deps where
  getFeatureFlag := fun _ _ => .ok false
  isGithubConfigured := .ok ()
  listTargets := fun _ _ => .ok []
  listProjects := fun _ _ => .ok []
  getDefaultBranch := fun _ _ => .ok "main"
  updateProject := fun _ _ => .ok ()
  logUpdatedProjects := fun _ _ => .ok ()
  logFailedToUpdateProjects := fun _ _ => .ok ()
  logFailedSync := fun _ _ _ _ => .ok ()
  getLoggingPath := fun _ => .ok "logs"

/-- Collaborators of an org with the customBranch feature flag enabled. -/
def customBranchDeps : Deps :=
  { baseDeps with getFeatureFlag := fun _ _ => .ok true }

/-- Collaborators whose feature-flag query rejects. -/
def flagErrorDeps : Deps :=
  { baseDeps with getFeatureFlag := fun _ _ => .error "403 forbidden" }

/-! ## C3 -/

/-- C3: for every org id and every requested source list containing no
supported source, `updateOrgTargets` rejects with the message enumerating the
supported sources (`nothingToSyncMessage`), with an empty invocation trace —
neither the feature-flag reader, nor the target lister, nor any other
collaborator is invoked, so no partial work is performed. -/
theorem updateOrgTargets_unsupported_sources_rejects (deps : Deps)
    (orgId : String) (sources : List String) (dryRun : Bool)
    (host : Option String)
    (h : sources.filter
      (fun s => supportedIntegrationTypesUpdateProject.contains s) = []) :
    updateOrgTargets deps orgId sources dryRun host =
      (.error nothingToSyncMessage, []) := by
  unfold updateOrgTargets
  dsimp only
  rw [h]
  rfl

/-- Witness for C3 at the test's concrete input: the source list
`["unsupported"]` is rejected with the named-sources message and an empty
trace. -/
theorem updateOrgTargets_unsupported_sources_rejects_witness :
    updateOrgTargets baseDeps "xxx" ["unsupported"] false none =
      (.error nothingToSyncMessage, []) :=
  updateOrgTargets_unsupported_sources_rejects baseDeps "xxx" ["unsupported"]
    false none (by decide)

/-! ## C2 -/

/-- C2: whenever the customBranch feature-flag query returns `true` (and the
query is reached, i.e. at least one requested source is supported),
`updateOrgTargets` rejects with the custom-branch message naming the org id,
and the invocation trace consists of the flag query alone — the target lister
is never invoked and no per-target work is performed. -/
theorem updateOrgTargets_customBranch_rejects (deps : Deps) (orgId : String)
    (sources : List String) (dryRun : Bool) (host : Option String)
    (hs : sources.filter
      (fun s => supportedIntegrationTypesUpdateProject.contains s) ≠ [])
    (hf : deps.getFeatureFlag "customBranch" orgId = .ok true) :
    updateOrgTargets deps orgId sources dryRun host =
      (.error (customBranchMessage orgId),
       [.getFeatureFlag "customBranch" orgId]) := by
  unfold updateOrgTargets
  dsimp only
  split
  · rename_i hemp
    exact absurd (List.isEmpty_iff.mp hemp) hs
  · rw [hf]
    rfl

/-- Witness for C2 at the test's concrete input (org `xxx`, sources
`["github"]`, flag mocked to `true`). -/
theorem updateOrgTargets_customBranch_rejects_witness :
    updateOrgTargets customBranchDeps "xxx" ["github"] false none =
      (.error (customBranchMessage "xxx"),
       [.getFeatureFlag "customBranch" "xxx"]) :=
  updateOrgTargets_customBranch_rejects customBranchDeps "xxx" ["github"]
    false none (by decide) rfl

/-! ## C8 -/

/-- C8: whenever the customBranch feature-flag query itself rejects (and the
query is reached, i.e. at least one requested source is supported),
`updateOrgTargets` rejects with the wrapped message naming the org id, and the
invocation trace consists of the flag query alone — the target lister and all
per-target synchronization are never invoked. -/
theorem updateOrgTargets_flag_query_error_rejects (deps : Deps)
    (orgId : String) (sources : List String) (dryRun : Bool)
    (host : Option String) (e : String)
    (hs : sources.filter
      (fun s => supportedIntegrationTypesUpdateProject.contains s) ≠ [])
    (hf : deps.getFeatureFlag "customBranch" orgId = .error e) :
    updateOrgTargets deps orgId sources dryRun host =
      (.error (orgNotFoundMessage orgId),
       [.getFeatureFlag "customBranch" orgId]) := by
  unfold updateOrgTargets
  dsimp only
  split
  · rename_i hemp
    exact absurd (List.isEmpty_iff.mp hemp) hs
  · rw [hf]

/-- Witness for C8: a rejecting flag query on org `xxx`. -/
theorem updateOrgTargets_flag_query_error_rejects_witness :
    updateOrgTargets flagErrorDeps "xxx" ["github"] false none =
      (.error (orgNotFoundMessage "xxx"),
       [.getFeatureFlag "customBranch" "xxx"]) :=
  updateOrgTargets_flag_query_error_rejects flagErrorDeps "xxx" ["github"]
    false none "403 forbidden" (by decide) rfl

/-! ## C9 -/

/-- C9: every source surviving the allowed-sources filter of
`updateOrgTargets` has a defined configuration check (`isSourceConfigured`
returns `some`), so the immediate invocation in the per-source mapper never
calls `undefined`; for any origin outside the supported set
`isSourceConfigured` returns `none` (TS: `undefined`). -/
theorem isSourceConfigured_defined_iff_supported (deps : Deps)
    (sources : List String) :
    (∀ s ∈ sources.filter
        (fun s => supportedIntegrationTypesUpdateProject.contains s),
      (isSourceConfigured deps s).isSome = true) ∧
    (∀ o, o ∉ supportedIntegrationTypesUpdateProject →
      isSourceConfigured deps o = none) := by
  constructor
  · intro s hs
    have hc : supportedIntegrationTypesUpdateProject.contains s = true :=
      (List.mem_filter.mp hs).2
    have hgs : s = "github" := by
      simpa [supportedIntegrationTypesUpdateProject] using hc
    simp [isSourceConfigured, hgs]
  · intro o ho
    have hne : ¬ o = "github" := by
      simpa [supportedIntegrationTypesUpdateProject] using ho
    simp [isSourceConfigured, hne]

/-- Witness for C9: `github` has a defined check, `bitbucket-cloud` does not. -/
theorem isSourceConfigured_defined_iff_supported_witness :
    (isSourceConfigured baseDeps "github").isSome = true ∧
      isSourceConfigured baseDeps "bitbucket-cloud" = none :=
  ⟨(isSourceConfigured_defined_iff_supported baseDeps ["github"]).1 "github"
      (by decide),
   (isSourceConfigured_defined_iff_supported baseDeps ["github"]).2
      "bitbucket-cloud" (by decide)⟩

/-! ## C10 -/

/-- C10: `updateTargets` on an empty sequence of targets (given the unguarded
logging-path resolution at its entry succeeds) returns
`{processedTargets = 0, updated = [], failed = []}`, and its invocation trace
is the single logging-path call — the per-target synchronizer and the project
loggers are never invoked. -/
theorem updateTargets_empty_targets (deps : Deps) (orgId : String)
    (dryRun : Bool) (host : Option String) (k : Nat) (p : String)
    (h : deps.getLoggingPath k = .ok p) :
    updateTargets deps orgId [] dryRun host k =
      (.ok emptyTargetsResult, [.getLoggingPath k]) := by
  unfold updateTargets
  rw [h]
  rfl

/-- Witness for C10 at a concrete collaborator set. -/
theorem updateTargets_empty_targets_witness :
    updateTargets baseDeps "xxx" [] false none 0 =
      (.ok emptyTargetsResult, [.getLoggingPath 0]) :=
  updateTargets_empty_targets baseDeps "xxx" false none 0 "logs" rfl

/-! ## C1 -/

/-- A concrete github target used by counterexamples and witnesses. -/
def t1 : SnykTarget :=
  { id := "t-1", displayName := "snyk/goof", origin := "github",
    isPrivate := false, remoteUrl := none }

/-- A concrete project recorded on branch `master`. -/
def p1 : SnykProject :=
  { id := "p-1", name := "snyk/goof:package.json", created := "2018",
    origin := "github", type := "npm", branch := some "master" }

/-- Collaborators where the target syncs fine but the updated-projects logger
rejects. -/
def logFailDeps : Deps :=
  { baseDeps with
    listProjects := fun _ _ => .ok [p1]
    getDefaultBranch := fun _ _ => .ok "develop"
    logUpdatedProjects := fun _ _ => .error "log write failed" }

/-- C1 counterexample: an exception thrown while processing a target — here by
the updated-projects logger, one of the exception sources the claim names — is
caught by the per-target boundary, yet the target HAS incremented
`processedTargets` and HAS contributed its entry to `updated`, because the
pushes and the increment precede the logging calls inside the try block.
This refutes the claim that such a target "does not increment
processedTargets" and "contributes no entries". -/
theorem updateTargets_logging_error_still_counts :
    logFailDeps.logUpdatedProjects "xxx"
        [mkProjectUpdate p1 "develop" true t1] = .error "log write failed" ∧
    (updateTargets logFailDeps "xxx" [t1] true none 0).1 =
      .ok { processedTargets := 1,
            updated := [mkProjectUpdate p1 "develop" true t1],
            failed := [] } :=
  ⟨rfl, rfl⟩

/-- If `syncProjectsForTarget` rejects for a target and the failure-sync
logger accepts, the per-target mapper catches the exception and returns the
accumulator unchanged. -/
theorem processTarget_sync_error (deps : Deps) (orgId : String)
    (dryRun : Bool) (host : Option String) (lp : String)
    (st : TargetsResult) (t : SnykTarget) (e : String)
    (hsync : (syncProjectsForTarget deps orgId t dryRun host).1 = .error e)
    (hlog : deps.logFailedSync orgId t e lp = .ok ()) :
    (processTarget deps orgId dryRun host lp st t).1 = .ok st := by
  unfold processTarget
  dsimp only
  rw [hsync]
  dsimp only
  unfold catchStep
  rw [hlog]

/-- Removing a target whose synchronization rejects (with an accepting
failure-sync logger) from anywhere in the batch does not change the batch
result: the remaining targets are processed exactly as if it were absent. -/
theorem updateTargetsGo_skip (deps : Deps) (orgId : String) (dryRun : Bool)
    (host : Option String) (lp : String) (t : SnykTarget) (e : String)
    (hsync : (syncProjectsForTarget deps orgId t dryRun host).1 = .error e)
    (hlog : deps.logFailedSync orgId t e lp = .ok ()) :
    ∀ (before after : List SnykTarget) (st : TargetsResult),
      (updateTargetsGo deps orgId dryRun host lp (before ++ t :: after)
        st).1 =
      (updateTargetsGo deps orgId dryRun host lp (before ++ after) st).1 := by
  intro before
  induction before with
  | nil =>
    intro after st
    have hp := processTarget_sync_error deps orgId dryRun host lp st t e
      hsync hlog
    simp only [List.nil_append, updateTargetsGo]
    rw [hp]
  | cons b bs ih =>
    intro after st
    simp only [List.cons_append, updateTargetsGo]
    cases hb : (processTarget deps orgId dryRun host lp st b).1 with
    | error e2 => rfl
    | ok st1 => exact ih after st1

/-- C1 (amended): for every batch and every target in it, if
`syncProjectsForTarget` rejects for that target (project listing,
default-branch lookup, or an internal error) and the failure-sync logger
accepts the report, the exception is caught inside the per-target boundary,
the target does not increment `processedTargets`, contributes no entries to
the returned sequences, and the remaining targets are processed exactly as if
the failing target were absent.  (As the C1 counterexample shows, this does
NOT extend to exceptions thrown by the post-success logging calls, which are
caught only after the target has been counted and its entries pushed.) -/
theorem updateTargets_failing_target_skipped (deps : Deps) (orgId : String)
    (dryRun : Bool) (host : Option String) (t : SnykTarget) (e : String)
    (before after : List SnykTarget) (k : Nat)
    (hsync : (syncProjectsForTarget deps orgId t dryRun host).1 = .error e)
    (hlog : ∀ lp, deps.logFailedSync orgId t e lp = .ok ()) :
    (updateTargets deps orgId (before ++ t :: after) dryRun host k).1 =
      (updateTargets deps orgId (before ++ after) dryRun host k).1 := by
  unfold updateTargets
  cases hk : deps.getLoggingPath k with
  | error e2 => rfl
  | ok lp =>
    exact updateTargetsGo_skip deps orgId dryRun host lp t e hsync (hlog lp)
      before after emptyTargetsResult

/-- Collaborators whose project-listing call rejects for every target. -/
def listErrDeps : Deps :=
  { baseDeps with listProjects := fun _ _ => .error "500 internal error" }

/-- Witness for C1 (amended) at a concrete input: a batch containing one
target whose project listing rejects gives the same result as the empty
batch. -/
theorem updateTargets_failing_target_skipped_witness :
    (updateTargets listErrDeps "xxx" [t1] false none 0).1 =
      (updateTargets listErrDeps "xxx" [] false none 0).1 :=
  updateTargets_failing_target_skipped listErrDeps "xxx" false none t1
    "500 internal error" [] [] 0 rfl (fun _ => rfl)

/-! ## C6 -/

/-- Shape of a full `updateOrgTargets` run whose per-source phase succeeded:
the returned value is the merged result together with the two guarded
log-path resolutions, and the trace extends the phase trace with the flag
query and the two final resolver calls. -/
theorem updateOrgTargets_go_ok (deps : Deps) (orgId : String)
    (sources : List String) (dryRun : Bool) (host : Option String)
    (res : TargetsResult) (k : Nat) (evs : List CallEv)
    (hs : sources.filter
      (fun s => supportedIntegrationTypesUpdateProject.contains s) ≠ [])
    (hflag : deps.getFeatureFlag "customBranch" orgId = .ok false)
    (hgo : updateOrgTargetsGo deps orgId dryRun host
        (sources.filter
          (fun s => supportedIntegrationTypesUpdateProject.contains s))
        emptyTargetsResult 0 = (.ok (res, k), evs)) :
    updateOrgTargets deps orgId sources dryRun host =
      (.ok ⟨resolvedLogFile deps k UPDATED_PROJECTS_LOG_NAME,
          resolvedLogFile deps (k + 1) FAILED_UPDATE_PROJECTS_LOG_NAME,
          res.processedTargets, res.updated, res.failed⟩,
       .getFeatureFlag "customBranch" orgId ::
         evs ++ [.getLoggingPath k, .getLoggingPath (k + 1)]) := by
  unfold updateOrgTargets
  dsimp only
  split
  · rename_i hemp
    exact absurd (List.isEmpty_iff.mp hemp) hs
  · rw [hflag, hgo]
    rfl

/-- Collaborators whose logging-path resolver always throws. -/
def pathErrDeps : Deps :=
  { baseDeps with getLoggingPath := fun _ => .error "no logging path" }

/-- C6 counterexample: with a logging-path resolver that throws, the whole
`updateOrgTargets` run REJECTS with that error, because the resolver call at
the entry of `updateTargets` (line 173) is not inside any try/catch.  This
refutes the claim that a logging-path resolution failure anywhere in the run
(including inside `updateTargets`) never causes the returned promise to
reject. -/
theorem updateOrgTargets_loggingPath_rejects :
    (updateOrgTargets pathErrDeps "xxx" ["github"] false none).1 =
      .error "no logging path" :=
  rfl

/-- C6 (amended): the two guarded log-path resolutions at the end of
`updateOrgTargets` (lines 136-150) never abort the run: if the per-source
phase succeeded and both final resolver calls throw, the run still resolves,
with `fileName`/`failedFileName` falling back to the bare fixed file names.
(The resolver call at the entry of `updateTargets` is NOT guarded; if it
throws, the run rejects, as the C6 counterexample shows.) -/
theorem updateOrgTargets_final_logpath_fallback (deps : Deps)
    (orgId : String) (sources : List String) (dryRun : Bool)
    (host : Option String) (res : TargetsResult) (k : Nat)
    (evs : List CallEv) (e1 e2 : String)
    (hs : sources.filter
      (fun s => supportedIntegrationTypesUpdateProject.contains s) ≠ [])
    (hflag : deps.getFeatureFlag "customBranch" orgId = .ok false)
    (hgo : updateOrgTargetsGo deps orgId dryRun host
        (sources.filter
          (fun s => supportedIntegrationTypesUpdateProject.contains s))
        emptyTargetsResult 0 = (.ok (res, k), evs))
    (h1 : deps.getLoggingPath k = .error e1)
    (h2 : deps.getLoggingPath (k + 1) = .error e2) :
    (updateOrgTargets deps orgId sources dryRun host).1 =
      .ok ⟨UPDATED_PROJECTS_LOG_NAME, FAILED_UPDATE_PROJECTS_LOG_NAME,
          res.processedTargets, res.updated, res.failed⟩ := by
  rw [updateOrgTargets_go_ok deps orgId sources dryRun host res k evs hs
    hflag hgo]
  unfold resolvedLogFile
  rw [h1, h2]

/-- Collaborators whose logging-path resolver succeeds on its first call
(inside `updateTargets`) and throws on every later call. -/
def lateFailPathDeps : Deps :=
  { baseDeps with
    getLoggingPath := fun k => if k = 0 then .ok "logs" else .error "env lost" }

/-- Witness for C6 (amended): the final resolver calls throw, yet the run
resolves with the bare file names. -/
theorem updateOrgTargets_final_logpath_fallback_witness :
    (updateOrgTargets lateFailPathDeps "xxx" ["github"] false none).1 =
      .ok ⟨UPDATED_PROJECTS_LOG_NAME, FAILED_UPDATE_PROJECTS_LOG_NAME,
          0, [], []⟩ :=
  updateOrgTargets_final_logpath_fallback lateFailPathDeps "xxx" ["github"]
    false none ⟨0, [], []⟩ 1
    [.isGithubConfigured, .listTargets "xxx" "github", .getLoggingPath 0]
    "env lost" "env lost" (by decide) rfl rfl rfl rfl

/-! ## C4 -/

/-- The updated list produced by the per-project fold is the join of the
per-project updated lists, in project-listing order. -/
theorem syncProjectsGo_updated (deps : Deps) (t : SnykTarget) (db : String)
    (dry : Bool) :
    ∀ ps : List SnykProject,
      (syncProjectsGo deps t db dry ps).1.1 =
        (ps.map (fun p => (syncProject deps t db dry p).1.1)).flatten := by
  intro ps
  induction ps with
  | nil => rfl
  | cons p ps ih => simp [syncProjectsGo, ih]

/-- The failed list produced by the per-project fold is the join of the
per-project failed lists, in project-listing order. -/
theorem syncProjectsGo_failed (deps : Deps) (t : SnykTarget) (db : String)
    (dry : Bool) :
    ∀ ps : List SnykProject,
      (syncProjectsGo deps t db dry ps).1.2 =
        (ps.map (fun p => (syncProject deps t db dry p).1.2)).flatten := by
  intro ps
  induction ps with
  | nil => rfl
  | cons p ps ih => simp [syncProjectsGo, ih]

/-- Any update record produced for a project is exactly the record built by
`mkProjectUpdate` for that project. -/
theorem syncProject_updated_eq (deps : Deps) (t : SnykTarget) (db : String)
    (dry : Bool) (p : SnykProject) :
    ∀ u ∈ (syncProject deps t db dry p).1.1, u = mkProjectUpdate p db dry t := by
  intro u hu
  cases dry with
  | true =>
    unfold syncProject at hu
    split at hu
    · cases hu
    · simpa using hu
  | false =>
    unfold syncProject at hu
    split at hu
    · cases hu
    · cases hupd : deps.updateProject p.id db with
      | ok _ => rw [hupd] at hu; simpa using hu
      | error m => rw [hupd] at hu; simp at hu

/-- A project whose branch differs and whose (non-dry-run) update call
rejects produces exactly one failure record and no update record. -/
theorem syncProject_failure_of_reject (deps : Deps) (t : SnykTarget)
    (db : String) (p : SnykProject) (msg : String)
    (hbr : ¬ p.branch = some db)
    (hupd : deps.updateProject p.id db = .error msg) :
    (syncProject deps t db false p).1 =
      ([], [mkProjectUpdateFailure p db false t msg]) := by
  unfold syncProject
  rw [if_neg hbr]
  rw [hupd]
  rfl

/-- A concrete target from the repository's monorepo test. -/
def tMono : SnykTarget :=
  { id := "t-mono", displayName := "snyk/monorepo", origin := "github",
    isPrivate := false, remoteUrl := none }

/-- The concrete project of the test whose update call rejects. -/
def pMono : SnykProject :=
  { id := "f57afea5-8fed-41d8-a8fd-d374c0944b07",
    name := "snyk/monorepo(main):package.json", created := "2018",
    origin := "github", type := "maven", branch := some "master" }

/-- Collaborators where the project-update call always rejects with
message `Error` (as mocked in the repository's test). -/
def updErrDeps : Deps :=
  { baseDeps with
    listProjects := fun _ _ => .ok [pMono]
    getDefaultBranch := fun _ _ => .ok "develop"
    updateProject := fun _ _ => .error "Error" }

/-- C4 counterexample: at the repository test's own input, the produced
failure message reads "... via Snyk API. ERROR: ..." (as the test at
part_000 lines 255-265 expects), not the claim's
"Failed to update project <id> via API. ERROR: <message>". -/
theorem syncProjectsForTarget_message_counterexample :
    (syncProjectsForTarget updErrDeps "xxx" tMono false none).1 =
      .ok ([], [mkProjectUpdateFailure pMono "develop" false tMono "Error"]) ∧
    (mkProjectUpdateFailure pMono "develop" false tMono
        "Error").errorMessage ≠
      "Failed to update project f57afea5-8fed-41d8-a8fd-d374c0944b07 via API. ERROR: Error" :=
  ⟨rfl, by decide⟩

/-- C4 (amended): for every project whose recorded branch differs from the
provider's default branch, if the external project-update call rejects, the
target's run produces a `ProjectUpdateFailure` whose message contains the
project id and the upstream error's message, prefixed
"Failed to update project <id> via Snyk API. ERROR: <message>"; the project
appears in `failed` and (its id being unique in the listing) in no `updated`
entry, and the rejection is never thrown past the per-project boundary
(the target-level result is `.ok`). -/
theorem syncProjectsForTarget_update_failure_captured (deps : Deps)
    (orgId : String) (t : SnykTarget) (host : Option String)
    (projects : List SnykProject) (p : SnykProject) (db msg : String)
    (hlist : deps.listProjects orgId t = .ok projects)
    (hdb : deps.getDefaultBranch t host = .ok db)
    (hp : p ∈ projects)
    (hbr : ¬ p.branch = some db)
    (hupd : deps.updateProject p.id db = .error msg)
    (huniq : ∀ q ∈ projects, q.id = p.id → q = p) :
    ∃ upd fld,
      (syncProjectsForTarget deps orgId t false host).1 = .ok (upd, fld) ∧
      mkProjectUpdateFailure p db false t msg ∈ fld ∧
      (mkProjectUpdateFailure p db false t msg).errorMessage =
        "Failed to update project " ++ p.id ++ " via Snyk API. ERROR: "
          ++ msg ∧
      ∀ u ∈ upd, u.projectPublicId ≠ p.id := by
  refine ⟨(syncProjectsGo deps t db false projects).1.1,
          (syncProjectsGo deps t db false projects).1.2, ?_, ?_, rfl, ?_⟩
  · unfold syncProjectsForTarget
    rw [hlist, hdb]
  · rw [syncProjectsGo_failed]
    refine List.mem_flatten.mpr
      ⟨(syncProject deps t db false p).1.2, List.mem_map_of_mem _ hp, ?_⟩
    rw [syncProject_failure_of_reject deps t db p msg hbr hupd]
    simp
  · intro u hu
    rw [syncProjectsGo_updated] at hu
    obtain ⟨l, hl, hul⟩ := List.mem_flatten.mp hu
    obtain ⟨q, hq, rfl⟩ := List.mem_map.mp hl
    have hue := syncProject_updated_eq deps t db false q u hul
    intro hid
    have hqid : q.id = p.id := by
      rw [hue] at hid
      simpa [mkProjectUpdate] using hid
    have hqp : q = p := huniq q hq hqid
    subst hqp
    rw [syncProject_failure_of_reject deps t db q msg hbr hupd] at hul
    cases hul

/-- Witness for C4 (amended) at the monorepo test's concrete input. -/
theorem syncProjectsForTarget_update_failure_captured_witness :
    ∃ upd fld,
      (syncProjectsForTarget updErrDeps "xxx" tMono false none).1 =
        .ok (upd, fld) ∧
      mkProjectUpdateFailure pMono "develop" false tMono "Error" ∈ fld ∧
      (mkProjectUpdateFailure pMono "develop" false tMono
          "Error").errorMessage =
        "Failed to update project " ++ pMono.id ++ " via Snyk API. ERROR: "
          ++ "Error" ∧
      ∀ u ∈ upd, u.projectPublicId ≠ pMono.id :=
  syncProjectsForTarget_update_failure_captured updErrDeps "xxx" tMono none
    [pMono] pMono "develop" "Error" rfl rfl (by decide) (by decide) rfl
    (by decide)

/-! ## C7 -/

/-- The result each allowed source would contribute, in order, starting at
`getLoggingPath` invocation index `k` (one index consumed per source). -/
def perSourceResults (deps : Deps) (orgId : String) (dryRun : Bool)
    (host : Option String) :
    List String → Nat → List (Except String TargetsResult)
  | [], _ => []
  | s :: ss, k =>
    (processSource deps orgId dryRun host k s).1 ::
      perSourceResults deps orgId dryRun host ss (k + 1)

/-- Inversion of a resolving `updateOrgTargets` run: the per-source phase
succeeded, and the returned counter/sequences are those of the phase. -/
theorem updateOrgTargets_ok_inv (deps : Deps) (orgId : String)
    (sources : List String) (dryRun : Bool) (host : Option String)
    (res : OrgSyncResult)
    (hrun : (updateOrgTargets deps orgId sources dryRun host).1 = .ok res) :
    ∃ r k,
      (updateOrgTargetsGo deps orgId dryRun host
        (sources.filter
          (fun s => supportedIntegrationTypesUpdateProject.contains s))
        emptyTargetsResult 0).1 = .ok (r, k) ∧
      res.processedTargets = r.processedTargets ∧
      res.updated = r.updated ∧ res.failed = r.failed := by
  unfold updateOrgTargets at hrun
  dsimp only at hrun
  split at hrun
  · exact absurd hrun (by simp)
  · cases hF : deps.getFeatureFlag "customBranch" orgId with
    | error e => rw [hF] at hrun; exact absurd hrun (by simp)
    | ok b =>
      rw [hF] at hrun
      cases b with
      | true => exact absurd hrun (by simp)
      | false =>
        cases hgo : (updateOrgTargetsGo deps orgId dryRun host
            (sources.filter
              (fun s => supportedIntegrationTypesUpdateProject.contains s))
            emptyTargetsResult 0).1 with
        | error e => rw [hgo] at hrun; exact absurd hrun (by simp)
        | ok rk =>
          obtain ⟨r, k⟩ := rk
          rw [hgo] at hrun
          injection hrun with h
          subst h
          exact ⟨r, k, rfl, rfl, rfl, rfl⟩

/-- A successful per-source phase is exactly the summation/concatenation of
the per-source results (each of which must have resolved). -/
theorem updateOrgTargetsGo_merge (deps : Deps) (orgId : String)
    (dryRun : Bool) (host : Option String) :
    ∀ (ss : List String) (acc : TargetsResult) (k : Nat)
      (res : TargetsResult) (k2 : Nat),
      (updateOrgTargetsGo deps orgId dryRun host ss acc k).1 = .ok (res, k2) →
      ∃ rs : List TargetsResult,
        perSourceResults deps orgId dryRun host ss k = rs.map Except.ok ∧
        res.processedTargets =
          acc.processedTargets + (rs.map (·.processedTargets)).sum ∧
        res.updated = acc.updated ++ (rs.map (·.updated)).flatten ∧
        res.failed = acc.failed ++ (rs.map (·.failed)).flatten := by
  intro ss
  induction ss with
  | nil =>
    intro acc k res k2 h
    simp only [updateOrgTargetsGo, Except.ok.injEq, Prod.mk.injEq] at h
    obtain ⟨rfl, rfl⟩ := h
    exact ⟨[], rfl, by simp, by simp, by simp⟩
  | cons s ss ih =>
    intro acc k res k2 h
    simp only [updateOrgTargetsGo] at h
    cases hps : (processSource deps orgId dryRun host k s).1 with
    | error e => rw [hps] at h; exact absurd h (by simp)
    | ok r =>
      rw [hps] at h
      dsimp only at h
      obtain ⟨rs, hrs, hp, hu, hf⟩ := ih (mergeResults acc r) (k + 1) res k2 h
      refine ⟨r :: rs, ?_, ?_, ?_, ?_⟩
      · simp [perSourceResults, hps, hrs]
      · simp [hp, mergeResults, Nat.add_assoc]
      · simp [hu, mergeResults]
      · simp [hf, mergeResults]

/-- C7: a resolving `updateOrgTargets` run merges the per-source results
purely by summation of `processedTargets` and concatenation (flatten, in
source order) of the `updated`/`failed` sequences; in particular entries are
never merged or deduplicated by project id — concatenation keeps every
per-source entry. -/
theorem updateOrgTargets_merges_by_sum_and_concat (deps : Deps)
    (orgId : String) (sources : List String) (dryRun : Bool)
    (host : Option String) (res : OrgSyncResult)
    (hrun : (updateOrgTargets deps orgId sources dryRun host).1 = .ok res) :
    ∃ rs : List TargetsResult,
      perSourceResults deps orgId dryRun host
        (sources.filter
          (fun s => supportedIntegrationTypesUpdateProject.contains s)) 0 =
        rs.map Except.ok ∧
      res.processedTargets = (rs.map (·.processedTargets)).sum ∧
      res.updated = (rs.map (·.updated)).flatten ∧
      res.failed = (rs.map (·.failed)).flatten := by
  obtain ⟨r, k, hgo, hp, hu, hf⟩ :=
    updateOrgTargets_ok_inv deps orgId sources dryRun host res hrun
  obtain ⟨rs, hrs, hp2, hu2, hf2⟩ :=
    updateOrgTargetsGo_merge deps orgId dryRun host _ _ _ _ _ hgo
  refine ⟨rs, hrs, ?_, ?_, ?_⟩
  · rw [hp, hp2]; simp [emptyTargetsResult]
  · rw [hu, hu2]; simp [emptyTargetsResult]
  · rw [hf, hf2]; simp [emptyTargetsResult]

/-- The dry-run update record for `p1` toward branch `develop`. -/
def u1 : ProjectUpdate := mkProjectUpdate p1 "develop" true t1

/-- Collaborators with one target and one out-of-date project, used with a
duplicated source list to exhibit non-deduplication. -/
def twoSourceDeps : Deps :=
  { baseDeps with
    listTargets := fun _ _ => .ok [t1]
    listProjects := fun _ _ => .ok [p1]
    getDefaultBranch := fun _ _ => .ok "develop" }

/-- Witness for C7: with the source list `["github", "github"]` the aggregate
is the sum/concatenation of the two per-source results, and the duplicate
update entries for the same project id are both kept. -/
theorem updateOrgTargets_merges_by_sum_and_concat_witness :
    ∃ rs : List TargetsResult,
      perSourceResults twoSourceDeps "xxx" true none
        (["github", "github"].filter
          (fun s => supportedIntegrationTypesUpdateProject.contains s)) 0 =
        rs.map Except.ok ∧
      (2 : Nat) = (rs.map (·.processedTargets)).sum ∧
      [u1, u1] = (rs.map (·.updated)).flatten ∧
      ([] : List ProjectUpdateFailure) = (rs.map (·.failed)).flatten :=
  updateOrgTargets_merges_by_sum_and_concat twoSourceDeps "xxx"
    ["github", "github"] true none
    ⟨"logs/updated-projects.log", "logs/failed-to-update-projects.log",
     2, [u1, u1], []⟩ rfl

/-! ## C5 -/

/-- Recognizer for project-update collaborator invocations. -/
def CallEv.isUpdateProjectCall : CallEv → Bool
  | .updateProject _ _ => true
  | _ => false

/-- The trace contains no project-update collaborator invocation. -/
def NoUpdateCalls (evs : List CallEv) : Prop :=
  ∀ ev ∈ evs, ev.isUpdateProjectCall = false

/-- The empty trace has no update invocation. -/
theorem noUpdateCalls_nil : NoUpdateCalls [] := by
  intro ev h
  cases h

/-- Concatenation preserves absence of update invocations. -/
theorem noUpdateCalls_append {a b : List CallEv}
    (ha : NoUpdateCalls a) (hb : NoUpdateCalls b) :
    NoUpdateCalls (a ++ b) := by
  intro ev h
  rcases List.mem_append.mp h with h1 | h2
  · exact ha ev h1
  · exact hb ev h2

/-- Prepending a non-update event preserves absence of update invocations. -/
theorem noUpdateCalls_cons {ev0 : CallEv} {b : List CallEv}
    (h0 : ev0.isUpdateProjectCall = false) (hb : NoUpdateCalls b) :
    NoUpdateCalls (ev0 :: b) := by
  intro ev h
  rcases List.mem_cons.mp h with rfl | h2
  · exact h0
  · exact hb ev h2

/-- In dry-run mode the per-project decision performs no invocation at all. -/
theorem syncProject_dry_events (deps : Deps) (t : SnykTarget) (db : String)
    (p : SnykProject) : (syncProject deps t db true p).2 = [] := by
  unfold syncProject
  split
  · rfl
  · rfl

/-- In dry-run mode the per-project fold performs no invocation at all. -/
theorem syncProjectsGo_dry_events (deps : Deps) (t : SnykTarget)
    (db : String) :
    ∀ ps, (syncProjectsGo deps t db true ps).2 = [] := by
  intro ps
  induction ps with
  | nil => rfl
  | cons p ps ih => simp [syncProjectsGo, syncProject_dry_events, ih]

/-- In dry-run mode a target's synchronization never invokes the
project-update collaborator. -/
theorem syncProjectsForTarget_dry_events (deps : Deps) (orgId : String)
    (t : SnykTarget) (host : Option String) :
    NoUpdateCalls (syncProjectsForTarget deps orgId t true host).2 := by
  unfold syncProjectsForTarget
  cases deps.listProjects orgId t with
  | error e => exact noUpdateCalls_cons rfl noUpdateCalls_nil
  | ok projects =>
    cases deps.getDefaultBranch t host with
    | error e =>
      exact noUpdateCalls_cons rfl (noUpdateCalls_cons rfl noUpdateCalls_nil)
    | ok db =>
      refine noUpdateCalls_append
        (noUpdateCalls_cons rfl (noUpdateCalls_cons rfl noUpdateCalls_nil))
        ?_
      rw [syncProjectsGo_dry_events]
      exact noUpdateCalls_nil

/-- The updated-projects logging step never invokes the project updater. -/
theorem logUpdatedStep_events (deps : Deps) (orgId : String)
    (upd : List ProjectUpdate) :
    NoUpdateCalls (logUpdatedStep deps orgId upd).2 := by
  unfold logUpdatedStep
  split
  · exact noUpdateCalls_nil
  · exact noUpdateCalls_cons rfl noUpdateCalls_nil

/-- The failed-projects logging step never invokes the project updater. -/
theorem logFailedStep_events (deps : Deps) (orgId : String)
    (fld : List ProjectUpdateFailure) :
    NoUpdateCalls (logFailedStep deps orgId fld).2 := by
  unfold logFailedStep
  split
  · exact noUpdateCalls_nil
  · exact noUpdateCalls_cons rfl noUpdateCalls_nil

/-- The catch block never invokes the project updater. -/
theorem catchStep_events (deps : Deps) (orgId : String) (t : SnykTarget)
    (lp msg : String) (st : TargetsResult) :
    NoUpdateCalls (catchStep deps orgId t lp msg st).2 := by
  unfold catchStep
  cases deps.logFailedSync orgId t msg lp with
  | ok _ => exact noUpdateCalls_cons rfl noUpdateCalls_nil
  | error e => exact noUpdateCalls_cons rfl noUpdateCalls_nil

/-- The post-success logging never invokes the project updater. -/
theorem logStep_events (deps : Deps) (orgId : String) (t : SnykTarget)
    (lp : String) (st1 : TargetsResult) (upd : List ProjectUpdate)
    (fld : List ProjectUpdateFailure) :
    NoUpdateCalls (logStep deps orgId t lp st1 upd fld).2 := by
  unfold logStep
  dsimp only
  cases (logUpdatedStep deps orgId upd).1 with
  | error e =>
    exact noUpdateCalls_append (logUpdatedStep_events deps orgId upd)
      (catchStep_events deps orgId t lp e st1)
  | ok _ =>
    cases (logFailedStep deps orgId fld).1 with
    | error e =>
      exact noUpdateCalls_append
        (noUpdateCalls_append (logUpdatedStep_events deps orgId upd)
          (logFailedStep_events deps orgId fld))
        (catchStep_events deps orgId t lp e st1)
    | ok _ =>
      exact noUpdateCalls_append (logUpdatedStep_events deps orgId upd)
        (logFailedStep_events deps orgId fld)

/-- In dry-run mode the per-target mapper never invokes the project
updater. -/
theorem processTarget_dry_events (deps : Deps) (orgId : String)
    (host : Option String) (lp : String) (st : TargetsResult)
    (t : SnykTarget) :
    NoUpdateCalls (processTarget deps orgId true host lp st t).2 := by
  unfold processTarget
  dsimp only
  cases (syncProjectsForTarget deps orgId t true host).1 with
  | error e =>
    exact noUpdateCalls_append
      (syncProjectsForTarget_dry_events deps orgId t host)
      (catchStep_events deps orgId t lp e st)
  | ok pr =>
    obtain ⟨upd, fld⟩ := pr
    exact noUpdateCalls_append
      (syncProjectsForTarget_dry_events deps orgId t host)
      (logStep_events deps orgId t lp _ upd fld)

/-- In dry-run mode the target batch fold never invokes the project
updater. -/
theorem updateTargetsGo_dry_events (deps : Deps) (orgId : String)
    (host : Option String) (lp : String) :
    ∀ ts st, NoUpdateCalls (updateTargetsGo deps orgId true host lp ts st).2 := by
  intro ts
  induction ts with
  | nil => intro st; exact noUpdateCalls_nil
  | cons t ts ih =>
    intro st
    simp only [updateTargetsGo]
    cases (processTarget deps orgId true host lp st t).1 with
    | error e => exact processTarget_dry_events deps orgId host lp st t
    | ok st1 =>
      exact noUpdateCalls_append
        (processTarget_dry_events deps orgId host lp st t) (ih st1)

/-- In dry-run mode `updateTargets` never invokes the project updater. -/
theorem updateTargets_dry_events (deps : Deps) (orgId : String)
    (targets : List SnykTarget) (host : Option String) (k : Nat) :
    NoUpdateCalls (updateTargets deps orgId targets true host k).2 := by
  unfold updateTargets
  cases deps.getLoggingPath k with
  | error e => exact noUpdateCalls_cons rfl noUpdateCalls_nil
  | ok lp =>
    exact noUpdateCalls_cons rfl
      (updateTargetsGo_dry_events deps orgId host lp targets
        emptyTargetsResult)

/-- In dry-run mode the per-source mapper never invokes the project
updater. -/
theorem processSource_dry_events (deps : Deps) (orgId : String)
    (host : Option String) (k : Nat) (s : String) :
    NoUpdateCalls (processSource deps orgId true host k s).2 := by
  unfold processSource
  cases isSourceConfigured deps s with
  | none => exact noUpdateCalls_nil
  | some check =>
    cases check with
    | error e => exact noUpdateCalls_cons rfl noUpdateCalls_nil
    | ok _ =>
      cases deps.listTargets orgId s with
      | error e =>
        exact noUpdateCalls_cons rfl (noUpdateCalls_cons rfl noUpdateCalls_nil)
      | ok targets =>
        exact noUpdateCalls_append
          (noUpdateCalls_cons rfl (noUpdateCalls_cons rfl noUpdateCalls_nil))
          (updateTargets_dry_events deps orgId targets host k)

/-- In dry-run mode the source fold never invokes the project updater. -/
theorem updateOrgTargetsGo_dry_events (deps : Deps) (orgId : String)
    (host : Option String) :
    ∀ ss acc k,
      NoUpdateCalls (updateOrgTargetsGo deps orgId true host ss acc k).2 := by
  intro ss
  induction ss with
  | nil => intro acc k; exact noUpdateCalls_nil
  | cons s ss ih =>
    intro acc k
    simp only [updateOrgTargetsGo]
    cases (processSource deps orgId true host k s).1 with
    | error e => exact processSource_dry_events deps orgId host k s
    | ok r =>
      exact noUpdateCalls_append
        (processSource_dry_events deps orgId host k s) (ih _ _)

/-- In dry-run mode the whole `updateOrgTargets` run never invokes the
project updater. -/
theorem updateOrgTargets_dry_trace (deps : Deps) (orgId : String)
    (sources : List String) (host : Option String) :
    NoUpdateCalls (updateOrgTargets deps orgId sources true host).2 := by
  unfold updateOrgTargets
  dsimp only
  split
  · exact noUpdateCalls_nil
  · cases deps.getFeatureFlag "customBranch" orgId with
    | error e => exact noUpdateCalls_cons rfl noUpdateCalls_nil
    | ok b =>
      cases b with
      | true => exact noUpdateCalls_cons rfl noUpdateCalls_nil
      | false =>
        cases (updateOrgTargetsGo deps orgId true host
            (sources.filter
              (fun s => supportedIntegrationTypesUpdateProject.contains s))
            emptyTargetsResult 0).1 with
        | error e =>
          exact noUpdateCalls_cons rfl
            (updateOrgTargetsGo_dry_events deps orgId host _ _ _)
        | ok rk =>
          obtain ⟨r, k⟩ := rk
          exact noUpdateCalls_cons rfl
            (noUpdateCalls_append
              (updateOrgTargetsGo_dry_events deps orgId host _ _ _)
              (noUpdateCalls_cons rfl (noUpdateCalls_cons rfl
                noUpdateCalls_nil)))

/-- The catch block resolves only when the failure-sync logger accepts, and
then returns the accumulator it was given. -/
theorem catchStep_ok_inv (deps : Deps) (orgId : String) (t : SnykTarget)
    (lp msg : String) (st st2 : TargetsResult)
    (h : (catchStep deps orgId t lp msg st).1 = .ok st2) : st2 = st := by
  unfold catchStep at h
  cases hls : deps.logFailedSync orgId t msg lp with
  | ok _ =>
    rw [hls] at h
    injection h with h2
    exact h2.symm
  | error e2 => rw [hls] at h; exact absurd h (by simp)

/-- A resolving post-success logging step returns the accumulator it was
given, whether or not a logging call was caught. -/
theorem logStep_ok_inv (deps : Deps) (orgId : String) (t : SnykTarget)
    (lp : String) (st1 : TargetsResult) (upd : List ProjectUpdate)
    (fld : List ProjectUpdateFailure) (st2 : TargetsResult)
    (h : (logStep deps orgId t lp st1 upd fld).1 = .ok st2) : st2 = st1 := by
  unfold logStep at h
  dsimp only at h
  cases hlu : (logUpdatedStep deps orgId upd).1 with
  | error e =>
    rw [hlu] at h
    exact catchStep_ok_inv deps orgId t lp e st1 st2 h
  | ok _ =>
    rw [hlu] at h
    cases hlf : (logFailedStep deps orgId fld).1 with
    | error e =>
      rw [hlf] at h
      exact catchStep_ok_inv deps orgId t lp e st1 st2 h
    | ok _ =>
      rw [hlf] at h
      injection h with h2
      exact h2.symm

/-- When a target's synchronization resolved with `(upd, fld)` and the
per-target mapper resolved, the new accumulator appended exactly `upd`. -/
theorem processTarget_ok_updated (deps : Deps) (orgId : String)
    (dry : Bool) (host : Option String) (lp : String) (st : TargetsResult)
    (t : SnykTarget) (st2 : TargetsResult) (upd : List ProjectUpdate)
    (fld : List ProjectUpdateFailure)
    (hsync : (syncProjectsForTarget deps orgId t dry host).1 = .ok (upd, fld))
    (hok : (processTarget deps orgId dry host lp st t).1 = .ok st2) :
    st2.updated = st.updated ++ upd := by
  unfold processTarget at hok
  dsimp only at hok
  rw [hsync] at hok
  have h2 : (logStep deps orgId t lp
      ⟨st.processedTargets + 1, st.updated ++ upd, st.failed ++ fld⟩
      upd fld).1 = .ok st2 := hok
  rw [logStep_ok_inv _ _ _ _ _ _ _ _ h2]

/-- A resolving per-target mapper only extends the accumulator's updated
sequence. -/
theorem processTarget_updated_mono (deps : Deps) (orgId : String)
    (dry : Bool) (host : Option String) (lp : String) (st : TargetsResult)
    (t : SnykTarget) (st2 : TargetsResult)
    (hok : (processTarget deps orgId dry host lp st t).1 = .ok st2) :
    ∀ x ∈ st.updated, x ∈ st2.updated := by
  unfold processTarget at hok
  dsimp only at hok
  cases hsf : (syncProjectsForTarget deps orgId t dry host).1 with
  | error e =>
    rw [hsf] at hok
    have hc : (catchStep deps orgId t lp e st).1 = .ok st2 := hok
    rw [catchStep_ok_inv _ _ _ _ _ _ _ hc]
    exact fun x hx => hx
  | ok pr =>
    obtain ⟨upd, fld⟩ := pr
    rw [hsf] at hok
    have h2 : (logStep deps orgId t lp
        ⟨st.processedTargets + 1, st.updated ++ upd, st.failed ++ fld⟩
        upd fld).1 = .ok st2 := hok
    rw [logStep_ok_inv _ _ _ _ _ _ _ _ h2]
    exact fun x hx => List.mem_append_left _ hx

/-- A resolving batch fold only extends the accumulator's updated
sequence. -/
theorem updateTargetsGo_updated_mono (deps : Deps) (orgId : String)
    (dry : Bool) (host : Option String) (lp : String) :
    ∀ ts st res,
      (updateTargetsGo deps orgId dry host lp ts st).1 = .ok res →
      ∀ x ∈ st.updated, x ∈ res.updated := by
  intro ts
  induction ts with
  | nil =>
    intro st res h
    injection h with h2
    subst h2
    exact fun x hx => hx
  | cons t ts ih =>
    intro st res h
    simp only [updateTargetsGo] at h
    cases hpt : (processTarget deps orgId dry host lp st t).1 with
    | error e => rw [hpt] at h; exact absurd h (by simp)
    | ok st1 =>
      rw [hpt] at h
      intro x hx
      exact ih st1 res h x
        (processTarget_updated_mono deps orgId dry host lp st t st1 hpt x hx)

/-- If a target of the batch synchronized with updated list `upd` and the
batch fold resolved, every member of `upd` is in the final updated
sequence. -/
theorem updateTargetsGo_mem_updated (deps : Deps) (orgId : String)
    (dry : Bool) (host : Option String) (lp : String) (t : SnykTarget)
    (upd : List ProjectUpdate) (fld : List ProjectUpdateFailure)
    (u : ProjectUpdate)
    (hsync : (syncProjectsForTarget deps orgId t dry host).1 = .ok (upd, fld))
    (hu : u ∈ upd) :
    ∀ ts st res,
      (updateTargetsGo deps orgId dry host lp ts st).1 = .ok res →
      t ∈ ts → u ∈ res.updated := by
  intro ts
  induction ts with
  | nil => intro st res h ht; cases ht
  | cons t2 ts ih =>
    intro st res h ht
    simp only [updateTargetsGo] at h
    cases hpt : (processTarget deps orgId dry host lp st t2).1 with
    | error e => rw [hpt] at h; exact absurd h (by simp)
    | ok st1 =>
      rw [hpt] at h
      rcases List.mem_cons.mp ht with rfl | ht2
      · have hst1 : st1.updated = st.updated ++ upd :=
          processTarget_ok_updated deps orgId dry host lp st t st1 upd fld
            hsync hpt
        have hmem : u ∈ st1.updated := by
          rw [hst1]; exact List.mem_append_right _ hu
        exact updateTargetsGo_updated_mono deps orgId dry host lp ts st1 res
          h u hmem
      · exact ih st1 res h ht2

/-- Lifting of the previous lemma through `updateTargets`. -/
theorem updateTargets_mem_updated (deps : Deps) (orgId : String)
    (targets : List SnykTarget) (dry : Bool) (host : Option String)
    (k : Nat) (r : TargetsResult) (t : SnykTarget)
    (upd : List ProjectUpdate) (fld : List ProjectUpdateFailure)
    (u : ProjectUpdate)
    (hres : (updateTargets deps orgId targets dry host k).1 = .ok r)
    (ht : t ∈ targets)
    (hsync : (syncProjectsForTarget deps orgId t dry host).1 = .ok (upd, fld))
    (hu : u ∈ upd) : u ∈ r.updated := by
  unfold updateTargets at hres
  cases hk : deps.getLoggingPath k with
  | error e => rw [hk] at hres; exact absurd hres (by simp)
  | ok lp =>
    rw [hk] at hres
    exact updateTargetsGo_mem_updated deps orgId dry host lp t upd fld u
      hsync hu targets emptyTargetsResult r hres ht

/-- Lifting through the per-source mapper: when the source resolves, every
member of a listed target's updated list is in the source's result. -/
theorem processSource_mem_updated (deps : Deps) (orgId : String)
    (dry : Bool) (host : Option String) (k : Nat) (s : String)
    (r : TargetsResult) (targets : List SnykTarget) (t : SnykTarget)
    (upd : List ProjectUpdate) (fld : List ProjectUpdateFailure)
    (u : ProjectUpdate)
    (hps : (processSource deps orgId dry host k s).1 = .ok r)
    (hlt : deps.listTargets orgId s = .ok targets)
    (ht : t ∈ targets)
    (hsync : (syncProjectsForTarget deps orgId t dry host).1 = .ok (upd, fld))
    (hu : u ∈ upd) : u ∈ r.updated := by
  unfold processSource at hps
  cases hc : isSourceConfigured deps s with
  | none => rw [hc] at hps; exact absurd hps (by simp)
  | some check =>
    rw [hc] at hps
    cases check with
    | error e => exact absurd hps (by simp)
    | ok _ =>
      rw [hlt] at hps
      exact updateTargets_mem_updated deps orgId targets dry host k r t
        upd fld u hps ht hsync hu

/-- A resolving source fold only extends the accumulator's updated
sequence. -/
theorem updateOrgTargetsGo_updated_mono (deps : Deps) (orgId : String)
    (dry : Bool) (host : Option String) :
    ∀ ss acc k res k2,
      (updateOrgTargetsGo deps orgId dry host ss acc k).1 = .ok (res, k2) →
      ∀ x ∈ acc.updated, x ∈ res.updated := by
  intro ss
  induction ss with
  | nil =>
    intro acc k res k2 h
    injection h with h2
    injection h2 with ha hk
    subst ha
    exact fun x hx => hx
  | cons s ss ih =>
    intro acc k res k2 h
    simp only [updateOrgTargetsGo] at h
    cases hps : (processSource deps orgId dry host k s).1 with
    | error e => rw [hps] at h; exact absurd h (by simp)
    | ok r =>
      rw [hps] at h
      intro x hx
      exact ih (mergeResults acc r) (k + 1) res k2 h x
        (List.mem_append_left _ hx)

/-- If some allowed source `s` always contributes `u` when it resolves, and
the source fold resolved with `s` among its sources, then `u` is in the
final updated sequence. -/
theorem updateOrgTargetsGo_mem_updated (deps : Deps) (orgId : String)
    (dry : Bool) (host : Option String) (u : ProjectUpdate) (s : String)
    (hsrc : ∀ k r, (processSource deps orgId dry host k s).1 = .ok r →
      u ∈ r.updated) :
    ∀ ss acc k res k2,
      (updateOrgTargetsGo deps orgId dry host ss acc k).1 = .ok (res, k2) →
      s ∈ ss → u ∈ res.updated := by
  intro ss
  induction ss with
  | nil => intro acc k res k2 h hs; cases hs
  | cons s2 ss ih =>
    intro acc k res k2 h hs
    simp only [updateOrgTargetsGo] at h
    cases hps : (processSource deps orgId dry host k s2).1 with
    | error e => rw [hps] at h; exact absurd h (by simp)
    | ok r =>
      rw [hps] at h
      rcases List.mem_cons.mp hs with rfl | hs2
      · exact updateOrgTargetsGo_updated_mono deps orgId dry host ss
          (mergeResults acc r) (k + 1) res k2 h u
          (List.mem_append_right _ (hsrc k r hps))
      · exact ih (mergeResults acc r) (k + 1) res k2 h hs2

/-- In dry-run mode a target with a listed out-of-date project synchronizes
with the dry `ProjectUpdate` for that project among its updated list. -/
theorem syncProjectsForTarget_dry_mem (deps : Deps) (orgId : String)
    (t : SnykTarget) (host : Option String) (projects : List SnykProject)
    (p : SnykProject) (db : String)
    (hlist : deps.listProjects orgId t = .ok projects)
    (hdb : deps.getDefaultBranch t host = .ok db)
    (hp : p ∈ projects)
    (hbr : ¬ p.branch = some db) :
    (syncProjectsForTarget deps orgId t true host).1 =
      .ok ((syncProjectsGo deps t db true projects).1.1,
           (syncProjectsGo deps t db true projects).1.2) ∧
    mkProjectUpdate p db true t ∈
      (syncProjectsGo deps t db true projects).1.1 := by
  constructor
  · unfold syncProjectsForTarget
    rw [hlist, hdb]
  · rw [syncProjectsGo_updated]
    refine List.mem_flatten.mpr
      ⟨(syncProject deps t db true p).1.1, List.mem_map_of_mem _ hp, ?_⟩
    unfold syncProject
    rw [if_neg hbr]
    simp

/-- C5: for a dry-run (`dryRun = true`) `updateOrgTargets` run that resolves,
every project listed under a processed target whose recorded branch differs
from the fetched default branch appears in `updated` as a `ProjectUpdate`
with `dryRun := true`, and the external project-update collaborator is never
invoked anywhere in the entire run (the trace has no update-call event). -/
theorem updateOrgTargets_dryRun_no_update_calls (deps : Deps)
    (orgId : String) (sources : List String) (host : Option String)
    (s : String) (targets : List SnykTarget) (t : SnykTarget)
    (projects : List SnykProject) (p : SnykProject) (db : String)
    (res : OrgSyncResult)
    (hres : (updateOrgTargets deps orgId sources true host).1 = .ok res)
    (hsrc : s ∈ sources.filter
      (fun x => supportedIntegrationTypesUpdateProject.contains x))
    (hlt : deps.listTargets orgId s = .ok targets)
    (ht : t ∈ targets)
    (hlp : deps.listProjects orgId t = .ok projects)
    (hdb : deps.getDefaultBranch t host = .ok db)
    (hp : p ∈ projects)
    (hbr : ¬ p.branch = some db) :
    mkProjectUpdate p db true t ∈ res.updated ∧
    NoUpdateCalls (updateOrgTargets deps orgId sources true host).2 := by
  constructor
  · obtain ⟨r0, k0, hgo, _, hu, _⟩ :=
      updateOrgTargets_ok_inv deps orgId sources true host res hres
    rw [hu]
    obtain ⟨hsync, hmem⟩ :=
      syncProjectsForTarget_dry_mem deps orgId t host projects p db hlp hdb
        hp hbr
    exact updateOrgTargetsGo_mem_updated deps orgId true host
      (mkProjectUpdate p db true t) s
      (fun k r hps => processSource_mem_updated deps orgId true host k s r
        targets t _ _ _ hps hlt ht hsync hmem)
      _ emptyTargetsResult 0 r0 k0 hgo hsrc
  · exact updateOrgTargets_dry_trace deps orgId sources host

/-- Witness for C5 at a concrete dry-run: the out-of-date project's dry
update record is in `updated` and the run's trace holds no update call. -/
theorem updateOrgTargets_dryRun_no_update_calls_witness :
    mkProjectUpdate p1 "develop" true t1 ∈
      (⟨"logs/updated-projects.log", "logs/failed-to-update-projects.log",
        1, [u1], []⟩ : OrgSyncResult).updated ∧
    NoUpdateCalls (updateOrgTargets twoSourceDeps "xxx" ["github"] true
      none).2 :=
  updateOrgTargets_dryRun_no_update_calls twoSourceDeps "xxx" ["github"]
    none "github" [t1] t1 [p1] p1 "develop"
    ⟨"logs/updated-projects.log", "logs/failed-to-update-projects.log",
     1, [u1], []⟩ rfl (by decide) rfl (by decide) rfl rfl (by decide)
    (by decide)
